import Mathlib

/-! Cloud functions of `functions/index.js`: `asanaWebhook` and `healthCheck`

A shallow embedding of the two HTTP handlers the properties below are about.

* JavaScript values reaching a handler (a parsed request body) are `JSValue`.
* A handler is a state-passing function over a `World` (the logger output and
  the Express response object) which may end in a thrown `JSError`; the state
  reached before a throw is kept, as in JavaScript.
* What the handlers read from their environment (the clock, the text an engine
  puts in an error's `message`, the outcome of the Firestore write) is passed
  in as `Env` / `HealthEnv`.
* `functions.logger` belongs to the `firebase-functions` package, which the
  repository does not pin; what its releases differ in, as far as the handlers
  can tell, is passed in as `Library`.
-/

namespace AsanaFunctions

/-! ## JavaScript values -/

/-- A JavaScript number: NaN, an infinity, or a finite value (negative zero is
the finite value 0, which is all the handlers can observe of it). -/
inductive JSNumber where
  | nan
  | infinity (negative : Bool)
  | finite (q : Rat)

/-- A JavaScript value as a request body can hold it: `undefined`, `null`, a
boolean, a number, a string, an array, or a plain object given by its own
properties (the first binding of a key is the property). -/
inductive JSValue where
  | undefined
  | null
  | bool (b : Bool)
  | num (n : JSNumber)
  | str (s : String)
  | arr (items : List JSValue)
  | obj (fields : List (String × JSValue))

/-- What a handler can have thrown at it. -/
inductive JSError where
  /-- TypeError: a property was read from `null` or `undefined`. -/
  | cannotReadProperty (base : JSValue) (key : String)
  /-- TypeError: `for ... of` over a value that is not iterable. -/
  | notIterable (v : JSValue)
  /-- The response was written to after it had been sent. -/
  | headersSent
  /-- An awaited call to an outside service rejected. -/
  | rejected (reason : String)
  /-- TypeError: a property that is not a function was called. -/
  | notAFunction (key : String)

/-- ToBoolean on a number: false for NaN and zero. -/
def JSNumber.truthy : JSNumber → Bool
  | .nan => false
  | .infinity _ => true
  | .finite q => decide (q ≠ 0)

/-- ToBoolean: what `if (v)` and `v && ...` test. -/
def JSValue.truthy : JSValue → Bool
  | .undefined => false
  | .null => false
  | .bool b => b
  | .num n => n.truthy
  | .str s => decide (s ≠ "")
  | .arr _ => true
  | .obj _ => true

/-- Value of `v === s` for a string literal `s`. -/
def JSValue.strictEqString (v : JSValue) (s : String) : Bool :=
  match v with
  | .str t => decide (t = s)
  | _ => false

/-- Value of `v.key`, for the property names the handlers read (`events`,
`resource`, `resource_type`, `gid`, `action`), none of which a built-in
prototype defines: reading from `null` or `undefined` throws, an object yields
its own property or `undefined`, every other value yields `undefined`. -/
def getProp (v : JSValue) (key : String) : Except JSError JSValue :=
  match v with
  | .undefined => .error (.cannotReadProperty v key)
  | .null => .error (.cannotReadProperty v key)
  | .obj fields => .ok ((fields.lookup key).getD .undefined)
  | _ => .ok .undefined

/-- The values `for (const x of v)` visits: the items of an array, the
characters of a string (each as a string); any other value is not iterable. -/
def iterate (v : JSValue) : Except JSError (List JSValue) :=
  match v with
  | .arr items => .ok items
  | .str s => .ok (s.toList.map (fun c => JSValue.str (String.singleton c)))
  | _ => .error (.notIterable v)

mutual
/-- Whether the walk the logger of `firebase-functions` makes over a value it
is about to write (`removeCircular`) meets an object whose `toJSON` is truthy:
an object is tested itself and then walked property by property, an array item
by item, any other value is left alone. -/
def JSValue.holdsToJSON : JSValue → Bool
  | .obj fields =>
    ((fields.lookup "toJSON").getD .undefined).truthy || propertiesHoldToJSON [] fields
  | .arr items => itemsHoldToJSON items
  | _ => false
/-- The walk over the items of an array. -/
def itemsHoldToJSON : List JSValue → Bool
  | [] => false
  | x :: rest => x.holdsToJSON || itemsHoldToJSON rest
/-- The walk over the properties of an object; a binding whose key came
earlier in the list (`seen`) is no property and is passed over. -/
def propertiesHoldToJSON (seen : List String) : List (String × JSValue) → Bool
  | [] => false
  | (k, v) :: rest =>
    (!seen.contains k && v.holdsToJSON) || propertiesHoldToJSON (k :: seen) rest
end

/-! ## Requests, responses, the logger -/

/-- An incoming HTTP request as the handlers see it. -/
structure Request where
  method : String
  body : JSValue
  headers : List (String × String)

/-- One line written through `functions.logger`. -/
inductive LogEntry where
  | info (message : String) (data : JSValue)
  | error (message : String) (err : JSError)

/-- Body of a response that was sent. -/
inductive ResponseBody where
  | empty
  | json (v : JSValue)

/-- A response as it went out. -/
structure SentResponse where
  status : Nat
  headers : List (String × String)
  body : ResponseBody

/-- The Express response object: the headers set so far, the status code
(200 until changed) and what was sent, if anything. -/
structure ResponseState where
  headers : List (String × String) := []
  statusCode : Nat := 200
  sent : Option SentResponse := none

/-- Everything a handler acts on. -/
structure World where
  log : List LogEntry
  res : ResponseState

/-- The world a handler is invoked in: the log so far and a new response. -/
def World.fresh (log : List LogEntry) : World :=
  { log := log, res := {} }

/-- A handler computation: from a world to a result or a thrown error, and
the world reached. -/
def Handler (α : Type) : Type := World → Except JSError α × World

/-- Sequencing: a throw skips the rest and keeps the world reached. -/
def Handler.bind {α β : Type} (m : Handler α) (f : α → Handler β) : Handler β :=
  fun w =>
    match m w with
    | (.ok a, w1) => f a w1
    | (.error e, w1) => (.error e, w1)

instance : Monad Handler where
  pure a := fun w => (.ok a, w)
  bind := Handler.bind

/-- Evaluation of an expression that may throw, inside a handler. -/
def evaluate {α : Type} (x : Except JSError α) : Handler α :=
  fun w => (x, w)

/-- Statement `try { body } catch (error) { handler }`. -/
def tryCatch (body : Handler Unit) (handler : JSError → Handler Unit) : Handler Unit :=
  fun w =>
    match body w with
    | (.ok a, w1) => (.ok a, w1)
    | (.error e, w1) => handler e w1

/-- Call `response.set(name, value)`: replaces the header of that name; throws
once the response has been sent. -/
def responseSet (name value : String) : Handler Unit :=
  fun w =>
    match w.res.sent with
    | some _ => (.error .headersSent, w)
    | none =>
      (.ok (), { w with res := { w.res with
        headers := w.res.headers.filter (fun h => decide (h.1 ≠ name)) ++ [(name, value)] } })

/-- Call `response.status(code)`. -/
def responseStatus (code : Nat) : Handler Unit :=
  fun w => (.ok (), { w with res := { w.res with statusCode := code } })

/-- Sends `body` with the current status and headers; throws once the response
has been sent. -/
def responseEnd (body : ResponseBody) : Handler Unit :=
  fun w =>
    match w.res.sent with
    | some _ => (.error .headersSent, w)
    | none =>
      (.ok (), { w with res := { w.res with
        sent := some { status := w.res.statusCode, headers := w.res.headers, body := body } } })

/-- Call `response.send()` without a body. -/
def responseSend : Handler Unit := responseEnd .empty

/-- Call `response.json(v)`. -/
def responseJson (v : JSValue) : Handler Unit := responseEnd (.json v)

/-- The installed `firebase-functions` package, as far as the handlers can
tell releases apart: whether its logger calls a truthy `toJSON` of an object
it is about to write without testing that it is a function. The releases
before 6.6 do; the values of a parsed body are never functions, so there the
call throws a TypeError. -/
structure Library where
  loggerCallsToJSON : Bool

/-- Whether `functions.logger.info(message, data)` throws. -/
def loggerThrows (lib : Library) (data : JSValue) : Bool :=
  lib.loggerCallsToJSON && data.holdsToJSON

/-- Call `functions.logger.info(message, data)`: writes the line, or throws
before anything is written. -/
def loggerInfo (lib : Library) (message : String) (data : JSValue) : Handler Unit :=
  fun w =>
    if loggerThrows lib data then (.error (.notAFunction "toJSON"), w)
    else (.ok (), { w with log := w.log ++ [.info message data] })

/-- Call `functions.logger.error(message, error)` with a thrown error, which
the logger formats into the message and does not walk. -/
def loggerError (message : String) (err : JSError) : Handler Unit :=
  fun w => (.ok (), { w with log := w.log ++ [.error message err] })

/-! ## `asanaWebhook` -/

/-- What `asanaWebhook` reads from outside: `new Date().toISOString()` at the
time of the answer, and the text the engine gives an error as its `message`. -/
structure Env where
  now : String
  errorMessage : JSError → String

/-- The request headers as the object `request.headers`: Node gives every
header under its lower-cased name. -/
def headersObject (headers : List (String × String)) : JSValue :=
  .obj (headers.map (fun h => (h.1.toLower, JSValue.str h.2)))

/-- Message of the log line written for a task event. -/
def taskEventMessage : String := "📋 작업 이벤트 감지됨"

/-- Body of the loop over `webhookData.events` (index.js lines 62-69). -/
def processEvent (lib : Library) (event : JSValue) : Handler Unit := do
  let resource ← evaluate (getProp event "resource")
  if resource.truthy then
    let resource1 ← evaluate (getProp event "resource")
    let resourceType ← evaluate (getProp resource1 "resource_type")
    if resourceType.strictEqString "task" then
      let resource2 ← evaluate (getProp event "resource")
      let gid ← evaluate (getProp resource2 "gid")
      let action ← evaluate (getProp event "action")
      loggerInfo lib taskEventMessage (.obj [("taskId", gid), ("eventType", action)])
    else
      pure ()
  else
    pure ()

/-- The loop `for (const event of ...)` over the values visited, in order. -/
def processEvents (lib : Library) : List JSValue → Handler Unit
  | [] => pure ()
  | event :: rest => do
    processEvent lib event
    processEvents lib rest

/-- The handler `asanaWebhook` (index.js lines 31-86). -/
def asanaWebhook (lib : Library) (env : Env) (request : Request) : Handler Unit :=
  tryCatch
    (do
      responseSet "Access-Control-Allow-Origin" "*"
      responseSet "Access-Control-Allow-Methods" "GET, POST, PUT, DELETE"
      responseSet "Access-Control-Allow-Headers" "Content-Type"
      if request.method = "OPTIONS" then
        responseStatus 200
        responseSend
      else
        loggerInfo lib "📬 Asana Webhook 호출됨"
          (.obj [("method", .str request.method), ("body", request.body),
                 ("headers", headersObject request.headers)])
        if request.method ≠ "POST" then
          responseStatus 405
          responseJson (.obj [("error", .str "Method Not Allowed")])
        else
          let webhookData := request.body
          let events ← evaluate (getProp webhookData "events")
          if events.truthy then
            let events1 ← evaluate (getProp webhookData "events")
            let visited ← evaluate (iterate events1)
            processEvents lib visited
          else
            pure ()
          responseJson (.obj [("message", .str "✅ Webhook 수신 완료"),
                              ("received", .bool true),
                              ("timestamp", .str env.now)]))
    (fun error => do
      loggerError "❌ Webhook 처리 중 오류:" error
      responseStatus 500
      responseJson (.obj [("error", .str "Internal Server Error"),
                          ("message", .str (env.errorMessage error))]))

/-! ## `healthCheck` -/

/-- What `healthCheck` reads from outside: `Date.now()` before and after the
write, whether the awaited Firestore write to `health/test` (index.js lines
144-150) resolved or rejected, `new Date().toISOString()` at the time of the
answer, and the text an error carries as its `message`. -/
structure HealthEnv where
  startTime : Int
  writeResult : Except JSError Unit
  endTime : Int
  now : String
  errorMessage : JSError → String

/-- The handler `healthCheck` (index.js lines 140-177). -/
def healthCheck (env : HealthEnv) (_request : Request) : Handler Unit :=
  tryCatch
    (do
      responseSet "Access-Control-Allow-Origin" "*"
      let startTime := env.startTime
      evaluate env.writeResult
      let responseTime := env.endTime - startTime
      responseJson (.obj [("status", .str "healthy"),
                          ("message", .str "🎯 모든 시스템이 정상 작동중입니다"),
                          ("checks", .obj [("firebase", .str "✅ 정상"),
                                           ("firestore", .str "✅ 정상"),
                                           ("functions", .str "✅ 정상")]),
                          ("performance",
                            .obj [("responseTime", .str (toString responseTime ++ "ms"))]),
                          ("timestamp", .str env.now)]))
    (fun error => do
      loggerError "❌ 헬스체크 실패:" error
      responseStatus 500
      responseJson (.obj [("status", .str "unhealthy"),
                          ("message", .str "시스템에 문제가 발생했습니다"),
                          ("error", .str (env.errorMessage error)),
                          ("timestamp", .str env.now)]))

/-! ## Observations on a run -/

/-- A task-event detection: the `taskId` and `eventType` of the log line
written for a task event. -/
structure Detection where
  taskId : JSValue
  eventType : JSValue

/-- The detection a log line reports, if it is a task-event line. -/
def detectionOf : LogEntry → Option Detection
  | .info message (.obj [("taskId", t), ("eventType", a)]) =>
    if message = taskEventMessage then some { taskId := t, eventType := a } else none
  | _ => none

/-- The task-event detections of a log, in the order written. -/
def detections (log : List LogEntry) : List Detection :=
  log.filterMap detectionOf

/-- The headers every answer of `asanaWebhook` carries. -/
def corsHeaders : List (String × String) :=
  [("Access-Control-Allow-Origin", "*"),
   ("Access-Control-Allow-Methods", "GET, POST, PUT, DELETE"),
   ("Access-Control-Allow-Headers", "Content-Type")]

/-- Whether a value is `null` or `undefined`. -/
def JSValue.isNullish : JSValue → Bool
  | .undefined => true
  | .null => true
  | _ => false

/-- Whether a value is an object in the sense of JavaScript (a plain object
or an array). -/
def JSValue.isObject : JSValue → Bool
  | .arr _ => true
  | .obj _ => true
  | _ => false

/-- Own property of a plain object, `undefined` where there is none. -/
def JSValue.field (v : JSValue) (key : String) : JSValue :=
  match v with
  | .obj fields => (fields.lookup key).getD .undefined
  | _ => .undefined

/-- Follows the wording of the specification: the resource type of a raw event
descriptor, present when the descriptor is an object whose `resource` is an
object with a `resource_type`. -/
def resourceTypeOf (descriptor : JSValue) : Option JSValue :=
  match descriptor with
  | .obj fields =>
    match fields.lookup "resource" with
    | some (.obj resource) => resource.lookup "resource_type"
    | _ => none
  | _ => none

/-- Follows the wording of the specification: the descriptor carries a
resource whose `resource_type` is the string task. -/
def carriesTaskResource (descriptor : JSValue) : Bool :=
  match resourceTypeOf descriptor with
  | some (.str t) => decide (t = "task")
  | _ => false

/-- Follows the wording of the specification: the detection of a descriptor,
taskId = resource.gid and eventType = action. -/
def detectionFor (descriptor : JSValue) : Detection :=
  { taskId := (descriptor.field "resource").field "gid",
    eventType := descriptor.field "action" }

/-- The data `asanaWebhook` hands the logger on entry for a request that is
not a preflight. -/
def callData (request : Request) : JSValue :=
  .obj [("method", .str request.method), ("body", request.body),
        ("headers", headersObject request.headers)]

/-- The log line `asanaWebhook` writes on entry for a request that is not a
preflight. -/
def callLine (request : Request) : LogEntry :=
  .info "📬 Asana Webhook 호출됨" (callData request)

/-- The data `asanaWebhook` hands the logger for a descriptor it takes for a
task event. -/
def taskData (descriptor : JSValue) : JSValue :=
  .obj [("taskId", (descriptor.field "resource").field "gid"),
        ("eventType", descriptor.field "action")]

/-- The log line for a descriptor that is detected as a task event. -/
def taskLine (descriptor : JSValue) : LogEntry :=
  .info taskEventMessage (taskData descriptor)

/-- The error the logger throws on a truthy `toJSON`. -/
def toJSONError : JSError := .notAFunction "toJSON"

/-- The answer of `asanaWebhook` to a delivery it processed to the end. -/
def receivedResponse (env : Env) : SentResponse :=
  { status := 200, headers := corsHeaders,
    body := .json (.obj [("message", .str "✅ Webhook 수신 완료"),
                         ("received", .bool true),
                         ("timestamp", .str env.now)]) }

/-- The answer of `asanaWebhook` when its body threw `e`. -/
def errorResponse (env : Env) (e : JSError) : SentResponse :=
  { status := 500, headers := corsHeaders,
    body := .json (.obj [("error", .str "Internal Server Error"),
                         ("message", .str (env.errorMessage e))]) }

/-- What evaluating the body of a POST does (index.js lines 57-71) once the
logger has taken the line written on entry, read off the value alone: the task
lines written, and the error thrown if any. That the handler does exactly this
is `asanaWebhook_post`. -/
def bodyTrace (body : JSValue) : List LogEntry × Option JSError :=
  match getProp body "events" with
  | .error e => ([], some e)
  | .ok events =>
    if events.truthy then
      match iterate events with
      | .error e => ([], some e)
      | .ok visited =>
        (((visited.takeWhile (fun x => !x.isNullish)).filter carriesTaskResource).map taskLine,
         (visited.find? JSValue.isNullish).map (fun x => JSError.cannotReadProperty x "resource"))
    else ([], none)

/-- Whether going through `events` throws nothing: it is falsy (or absent, that
is `undefined`), a string, or an array with no `null` or `undefined` item. -/
def eventsWellFormed (events : JSValue) : Bool :=
  match events with
  | .arr items => items.all (fun x => !x.isNullish)
  | .str _ => true
  | v => !v.truthy

/-- Whether evaluating a POST body throws: the body is `null` or `undefined`,
or its `events` is a truthy value that is not iterable, or an array holding a
`null` or `undefined` item. -/
def bodyRaises (body : JSValue) : Bool :=
  body.isNullish || !eventsWellFormed (body.field "events")

/-- The answer of `asanaWebhook` to a CORS preflight. -/
def preflightResponse : SentResponse :=
  { status := 200, headers := corsHeaders, body := .empty }

/-- The answer of `asanaWebhook` to a method it does not handle. -/
def methodNotAllowedResponse : SentResponse :=
  { status := 405, headers := corsHeaders,
    body := .json (.obj [("error", .str "Method Not Allowed")]) }

/-- A release of `firebase-functions` before 6.6, whose logger calls a truthy
`toJSON` untested. -/
def olderLibrary : Library := { loggerCallsToJSON := true }

/-- A concrete environment for the examples. -/
def sampleEnv : Env :=
  { now := "2024-05-01T09:00:00.000Z", errorMessage := fun _ => "TypeError" }

/-- A task event descriptor with the given gid and action. -/
def taskEvent (gid action : String) : JSValue :=
  .obj [("resource", .obj [("gid", .str gid), ("resource_type", .str "task")]),
        ("action", .str action)]

/-- The answer of `healthCheck` after the write went through. -/
def healthyResponse (env : HealthEnv) : SentResponse :=
  { status := 200, headers := [("Access-Control-Allow-Origin", "*")],
    body := .json (.obj [("status", .str "healthy"),
                         ("message", .str "🎯 모든 시스템이 정상 작동중입니다"),
                         ("checks", .obj [("firebase", .str "✅ 정상"),
                                          ("firestore", .str "✅ 정상"),
                                          ("functions", .str "✅ 정상")]),
                         ("performance",
                           .obj [("responseTime",
                                  .str (toString (env.endTime - env.startTime) ++ "ms"))]),
                         ("timestamp", .str env.now)]) }

/-- The answer of `healthCheck` after the write failed with `e`. -/
def unhealthyResponse (env : HealthEnv) (e : JSError) : SentResponse :=
  { status := 500, headers := [("Access-Control-Allow-Origin", "*")],
    body := .json (.obj [("status", .str "unhealthy"),
                         ("message", .str "시스템에 문제가 발생했습니다"),
                         ("error", .str (env.errorMessage e)),
                         ("timestamp", .str env.now)]) }

/-- The `status` field of the JSON body of a response. -/
def SentResponse.reportedStatus (r : SentResponse) : JSValue :=
  match r.body with
  | .json v => v.field "status"
  | .empty => .undefined

/-! ## Lemmas on the logger -/

theorem char_toLower_ne_J (c : Char) : c.toLower ≠ 'J' := by
  intro h
  unfold Char.toLower at h
  simp only [ge_iff_le] at h
  have hJ : ('J' : Char).toNat = 74 := by decide
  split at h
  · rename_i hc
    have h2 := congrArg Char.toNat h
    have h3 : (Char.ofNat (c.toNat + 32)).toNat = c.toNat + 32 := by
      have hv : (c.val.toNat + 32).isValidChar := by
        left
        have : c.val.toNat = c.toNat := rfl
        omega
      simp only [Char.ofNat, Char.toNat, dif_pos hv, Char.ofNatAux]
      rfl
    rw [h3] at h2
    omega
  · rename_i hc
    have h2 := congrArg Char.toNat h
    omega

theorem toLower_ne_toJSON (s : String) : s.toLower ≠ "toJSON" := by
  intro h
  have h2 := congrArg String.data h
  simp only [String.toLower, String.map_eq] at h2
  have hmem : 'J' ∈ List.map Char.toLower s.data := by
    rw [h2]
    decide
  obtain ⟨c, _, hc⟩ := List.mem_map.mp hmem
  exact char_toLower_ne_J c hc

theorem holdsToJSON_undefined : JSValue.undefined.holdsToJSON = false := by
  simp [JSValue.holdsToJSON]

theorem holdsToJSON_str (s : String) : (JSValue.str s).holdsToJSON = false := by
  simp [JSValue.holdsToJSON]

theorem holdsToJSON_of_not_object (v : JSValue) (h : v.isObject = false) :
    v.holdsToJSON = false := by
  cases v <;> simp [JSValue.isObject] at h <;> simp [JSValue.holdsToJSON]

theorem propertiesHoldToJSON_lookup (fields : List (String × JSValue)) :
    ∀ (seen : List String) (key : String) (v : JSValue),
      propertiesHoldToJSON seen fields = false → key ∉ seen →
      fields.lookup key = some v → v.holdsToJSON = false := by
  induction fields with
  | nil => intro seen key v _ _ h; simp at h
  | cons p rest ih =>
    intro seen key v h hSeen hLook
    obtain ⟨k, x⟩ := p
    simp only [propertiesHoldToJSON, Bool.or_eq_false_iff, Bool.and_eq_false_imp,
      Bool.not_eq_true'] at h
    by_cases hk : key = k
    · subst hk
      simp only [List.lookup, beq_self_eq_true, Option.some.injEq] at hLook
      subst hLook
      apply h.1
      simpa using hSeen
    · have hb : (key == k) = false := by simpa using hk
      simp only [List.lookup, hb] at hLook
      exact ih (k :: seen) key v h.2 (by simp [hk, hSeen]) hLook

theorem field_not_holds (v : JSValue) (key : String) (h : v.holdsToJSON = false) :
    (v.field key).holdsToJSON = false := by
  cases v with
  | obj fields =>
    simp only [JSValue.holdsToJSON, Bool.or_eq_false_iff] at h
    cases hl : fields.lookup key with
    | none => simp [JSValue.field, hl, holdsToJSON_undefined]
    | some x =>
      simp only [JSValue.field, hl, Option.getD_some]
      exact propertiesHoldToJSON_lookup fields [] key x h.2 (by simp) hl
  | _ => simp [JSValue.field, holdsToJSON_undefined]

theorem items_not_hold (items : List JSValue) (h : itemsHoldToJSON items = false) :
    ∀ x ∈ items, x.holdsToJSON = false := by
  induction items with
  | nil => intro x hx; simp at hx
  | cons y rest ih =>
    simp only [itemsHoldToJSON, Bool.or_eq_false_iff] at h
    intro x hx
    rcases List.mem_cons.mp hx with rfl | hx
    · exact h.1
    · exact ih h.2 x hx

theorem taskData_not_holds (x : JSValue) (h : x.holdsToJSON = false) :
    (taskData x).holdsToJSON = false := by
  have h1 := field_not_holds _ "gid" (field_not_holds x "resource" h)
  have h2 := field_not_holds x "action" h
  have hk : ("toJSON" == "taskId") = false := by decide
  have hk2 : ("toJSON" == "eventType") = false := by decide
  simp [taskData, JSValue.holdsToJSON, propertiesHoldToJSON, List.lookup, hk, hk2, h1, h2,
    JSValue.truthy]

theorem headers_lookup_toJSON (headers : List (String × String)) :
    (headers.map (fun h => (h.1.toLower, JSValue.str h.2))).lookup "toJSON" = none := by
  induction headers with
  | nil => rfl
  | cons h rest ih =>
    have hb : ("toJSON" == h.1.toLower) = false := by
      simpa using fun e => toLower_ne_toJSON h.1 e.symm
    simp only [List.map_cons, List.lookup, hb, ih]

theorem headers_properties_not_hold (headers : List (String × String)) :
    ∀ seen, propertiesHoldToJSON seen
      (headers.map (fun h => (h.1.toLower, JSValue.str h.2))) = false := by
  induction headers with
  | nil => intro seen; rfl
  | cons h rest ih =>
    intro seen
    simp [propertiesHoldToJSON, holdsToJSON_str, ih]

theorem headersObject_not_holds (headers : List (String × String)) :
    (headersObject headers).holdsToJSON = false := by
  simp [headersObject, JSValue.holdsToJSON, headers_lookup_toJSON,
    headers_properties_not_hold, JSValue.truthy]

theorem callData_holds (request : Request) :
    (callData request).holdsToJSON = request.body.holdsToJSON := by
  have hk1 : ("toJSON" == "method") = false := by decide
  have hk2 : ("toJSON" == "body") = false := by decide
  have hk3 : ("toJSON" == "headers") = false := by decide
  have hH := headersObject_not_holds request.headers
  rw [callData, JSValue.holdsToJSON]
  simp only [propertiesHoldToJSON, List.lookup, hk1, hk2, hk3, hH, holdsToJSON_str,
    Option.getD_none, JSValue.truthy]
  simp

theorem loggerThrows_callData (lib : Library) (request : Request) :
    loggerThrows lib (callData request) = loggerThrows lib request.body := by
  simp [loggerThrows, callData_holds]

theorem loggerThrows_taskData (lib : Library) (x : JSValue)
    (h : loggerThrows lib x = false) : loggerThrows lib (taskData x) = false := by
  simp only [loggerThrows, Bool.and_eq_false_imp] at h ⊢
  intro hl
  exact taskData_not_holds x (h hl)

/-! ## Lemmas on the handler computations -/

theorem Handler.bind_apply {α β : Type} (m : Handler α) (f : α → Handler β) (w : World) :
    (m >>= f) w = Handler.bind m f w := rfl

theorem Handler.pure_apply {α : Type} (a : α) (w : World) :
    (pure a : Handler α) w = (.ok a, w) := rfl

theorem Handler.ite_apply {α : Type} (c : Prop) [Decidable c] (a b : Handler α) (w : World) :
    (if c then a else b) w = if c then a w else b w := by
  split <;> rfl

theorem evaluate_apply {α : Type} (x : Except JSError α) (w : World) :
    evaluate x w = (x, w) := rfl

theorem processEvent_nullish (lib : Library) (event : JSValue) (w : World)
    (h : event.isNullish = true) :
    processEvent lib event w = (.error (.cannotReadProperty event "resource"), w) := by
  cases event <;> simp [JSValue.isNullish] at h <;>
    simp [processEvent, Handler.bind_apply, Handler.bind, evaluate, getProp]

theorem loggerInfo_accepts (lib : Library) (message : String) (data : JSValue) (w : World)
    (h : loggerThrows lib data = false) :
    loggerInfo lib message data w = (.ok (), { w with log := w.log ++ [.info message data] }) := by
  simp [loggerInfo, h]

theorem loggerInfo_throws (lib : Library) (message : String) (data : JSValue) (w : World)
    (h : loggerThrows lib data = true) :
    loggerInfo lib message data w = (.error toJSONError, w) := by
  simp [loggerInfo, h, toJSONError]

theorem processEvent_ok (lib : Library) (event : JSValue) (w : World)
    (h : event.isNullish = false) (hLog : loggerThrows lib (taskData event) = false) :
    processEvent lib event w =
      (.ok (), { w with log := w.log ++ if carriesTaskResource event then [taskLine event] else [] }) := by
  cases event with
  | undefined => simp [JSValue.isNullish] at h
  | null => simp [JSValue.isNullish] at h
  | obj fields =>
    cases hr : fields.lookup "resource" with
    | none =>
      simp [processEvent, Handler.bind_apply, Handler.bind, Handler.pure_apply, evaluate_apply,
        Handler.ite_apply, getProp, hr, JSValue.truthy, carriesTaskResource, resourceTypeOf]
    | some r =>
      cases r with
      | obj rfs =>
        cases ht : rfs.lookup "resource_type" with
        | none =>
          simp [processEvent, Handler.bind_apply, Handler.bind, Handler.pure_apply,
            evaluate_apply, Handler.ite_apply, getProp, hr, ht, JSValue.truthy,
            carriesTaskResource, resourceTypeOf, JSValue.strictEqString]
        | some t =>
          simp only [taskData, JSValue.field, hr, Option.getD_some] at hLog
          cases t <;>
            simp [processEvent, Handler.bind_apply, Handler.bind, Handler.pure_apply,
              evaluate_apply, Handler.ite_apply, getProp, hr, ht, JSValue.truthy,
              carriesTaskResource, resourceTypeOf, JSValue.strictEqString, taskLine, taskData,
              JSValue.field]
          split <;> simp [loggerInfo_accepts lib _ _ _ hLog]
      | bool b =>
        cases b <;>
        simp [processEvent, Handler.bind_apply, Handler.bind, Handler.pure_apply, evaluate_apply,
          Handler.ite_apply, getProp, hr, JSValue.truthy, carriesTaskResource, resourceTypeOf,
          JSValue.strictEqString]
      | num n =>
        cases hn : n.truthy <;>
        simp [processEvent, Handler.bind_apply, Handler.bind, Handler.pure_apply, evaluate_apply,
          Handler.ite_apply, getProp, hr, hn, JSValue.truthy, carriesTaskResource, resourceTypeOf,
          JSValue.strictEqString]
      | str t =>
        by_cases ht : t = "" <;>
        simp [processEvent, Handler.bind_apply, Handler.bind, Handler.pure_apply, evaluate_apply,
          Handler.ite_apply, getProp, hr, ht, JSValue.truthy, carriesTaskResource, resourceTypeOf,
          JSValue.strictEqString]
      | _ =>
        simp [processEvent, Handler.bind_apply, Handler.bind, Handler.pure_apply, evaluate_apply,
          Handler.ite_apply, getProp, hr, JSValue.truthy, carriesTaskResource, resourceTypeOf,
          JSValue.strictEqString]
  | _ =>
    simp [processEvent, Handler.bind_apply, Handler.bind, Handler.pure_apply, evaluate_apply,
      Handler.ite_apply, getProp, JSValue.truthy, carriesTaskResource, resourceTypeOf]

theorem processEvents_eq (lib : Library) (xs : List JSValue) (w : World)
    (hLog : ∀ x ∈ xs, loggerThrows lib (taskData x) = false) :
    processEvents lib xs w =
      (match xs.find? JSValue.isNullish with
        | none => .ok ()
        | some x => .error (.cannotReadProperty x "resource"),
       { w with log := w.log ++
          ((xs.takeWhile (fun x => !x.isNullish)).filter carriesTaskResource).map taskLine }) := by
  induction xs generalizing w with
  | nil => simp [processEvents, Handler.pure_apply]
  | cons x rest ih =>
    have hx0 := hLog x (List.mem_cons_self x rest)
    have hRest : ∀ y ∈ rest, loggerThrows lib (taskData y) = false :=
      fun y hy => hLog y (List.mem_cons_of_mem x hy)
    cases hx : x.isNullish with
    | true =>
      simp [processEvents, Handler.bind_apply, Handler.bind, processEvent_nullish lib x w hx,
        List.find?, List.takeWhile, hx]
    | false =>
      by_cases ht : carriesTaskResource x = true <;>
      simp [processEvents, Handler.bind_apply, Handler.bind, processEvent_ok lib x w hx hx0,
        ih _ hRest, List.find?, List.takeWhile, hx, ht, List.filter]

theorem getProp_of_not_nullish (v : JSValue) (key : String) (h : v.isNullish = false) :
    getProp v key = .ok (v.field key) := by
  cases v <;> simp [JSValue.isNullish] at h <;> simp [getProp, JSValue.field]

theorem visited_accepted (lib : Library) (body events : JSValue) (visited : List JSValue)
    (hBody : loggerThrows lib body = false)
    (hg : getProp body "events" = .ok events) (hi : iterate events = .ok visited) :
    ∀ x ∈ visited, loggerThrows lib (taskData x) = false := by
  intro x hx
  apply loggerThrows_taskData
  simp only [loggerThrows, Bool.and_eq_false_imp] at hBody ⊢
  intro hl
  have hb := hBody hl
  have hn : body.isNullish = false := by
    cases body <;> simp [getProp] at hg <;> rfl
  rw [getProp_of_not_nullish body "events" hn] at hg
  have he : events.holdsToJSON = false := by
    have := field_not_holds body "events" hb
    simp only [Except.ok.injEq] at hg
    rw [hg] at this
    exact this
  cases events with
  | arr items =>
    simp only [iterate, Except.ok.injEq] at hi
    subst hi
    simp only [JSValue.holdsToJSON] at he
    exact items_not_hold items he x hx
  | str s =>
    simp only [iterate, Except.ok.injEq] at hi
    subst hi
    obtain ⟨c, _, rfl⟩ := List.mem_map.mp hx
    exact holdsToJSON_str _
  | _ => simp [iterate] at hi

theorem asanaWebhook_post (lib : Library) (env : Env) (request : Request)
    (log : List LogEntry) (hPost : request.method = "POST") :
    asanaWebhook lib env request (World.fresh log) =
      (.ok (),
        if loggerThrows lib request.body = true then
          { log := log ++ [.error "❌ Webhook 처리 중 오류:" toJSONError],
            res := { headers := corsHeaders, statusCode := 500,
                     sent := some (errorResponse env toJSONError) } }
        else
          match (bodyTrace request.body).2 with
          | none =>
            { log := log ++ [callLine request] ++ (bodyTrace request.body).1,
              res := { headers := corsHeaders, statusCode := 200,
                       sent := some (receivedResponse env) } }
          | some e =>
            { log := log ++ [callLine request] ++ (bodyTrace request.body).1 ++
                [.error "❌ Webhook 처리 중 오류:" e],
              res := { headers := corsHeaders, statusCode := 500,
                       sent := some (errorResponse env e) } }) := by
  have hOpt : request.method ≠ "OPTIONS" := by rw [hPost]; decide
  have hData : (JSValue.obj [("method", .str "POST"), ("body", request.body),
      ("headers", headersObject request.headers)]) = callData request := by
    simp [callData, hPost]
  unfold asanaWebhook tryCatch
  simp only [Handler.bind_apply, Handler.bind, Handler.ite_apply, Handler.pure_apply,
    evaluate_apply, responseSet, responseStatus, responseJson, responseEnd,
    loggerError, World.fresh, hOpt, hPost, if_false, ne_eq, not_true_eq_false]
  have hHeaders :
      List.filter (fun h : String × String => decide ¬h.1 = "Access-Control-Allow-Headers")
          (List.filter (fun h : String × String => decide ¬h.1 = "Access-Control-Allow-Methods")
              (List.filter (fun h : String × String => decide ¬h.1 = "Access-Control-Allow-Origin")
                  [] ++ [("Access-Control-Allow-Origin", "*")]) ++
            [("Access-Control-Allow-Methods", "GET, POST, PUT, DELETE")]) ++
        [("Access-Control-Allow-Headers", "Content-Type")] = corsHeaders := by
    decide
  rw [hHeaders, hData]
  have hNe : ¬ ("POST" = "OPTIONS") := by decide
  simp only [hNe, if_false]
  cases hT : loggerThrows lib request.body with
  | true =>
    rw [loggerInfo_throws lib _ _ _ (by rw [loggerThrows_callData]; exact hT)]
    simp [errorResponse]
  | false =>
    rw [loggerInfo_accepts lib _ _ _ (by rw [loggerThrows_callData]; exact hT)]
    cases hg : getProp request.body "events" with
    | error e =>
      simp [bodyTrace, hg, callLine, errorResponse]
    | ok events =>
      cases ht : events.truthy with
      | false =>
        simp [bodyTrace, hg, ht, callLine, receivedResponse]
      | true =>
        cases hi : iterate events with
        | error e =>
          simp [bodyTrace, hg, ht, hi, callLine, errorResponse]
        | ok visited =>
          have hV := visited_accepted lib request.body events visited hT hg hi
          cases hf : visited.find? JSValue.isNullish <;>
          simp [bodyTrace, hg, ht, hi, hf, callLine, errorResponse, receivedResponse,
            processEvents_eq lib visited _ hV]

theorem asanaWebhook_options (lib : Library) (env : Env) (request : Request)
    (log : List LogEntry) (hOpt : request.method = "OPTIONS") :
    asanaWebhook lib env request (World.fresh log) =
      (.ok (), { log := log,
                 res := { headers := corsHeaders, statusCode := 200,
                          sent := some preflightResponse } }) := by
  unfold asanaWebhook tryCatch
  simp only [Handler.bind_apply, Handler.bind, Handler.ite_apply, Handler.pure_apply,
    evaluate_apply, responseSet, responseStatus, responseSend, responseEnd, World.fresh, hOpt,
    if_true]
  simp [preflightResponse, corsHeaders]

theorem asanaWebhook_other (lib : Library) (env : Env) (request : Request)
    (log : List LogEntry) (hOpt : request.method ≠ "OPTIONS") (hPost : request.method ≠ "POST") :
    asanaWebhook lib env request (World.fresh log) =
      (.ok (),
        if loggerThrows lib request.body = true then
          { log := log ++ [.error "❌ Webhook 처리 중 오류:" toJSONError],
            res := { headers := corsHeaders, statusCode := 500,
                     sent := some (errorResponse env toJSONError) } }
        else
          { log := log ++ [callLine request],
            res := { headers := corsHeaders, statusCode := 405,
                     sent := some methodNotAllowedResponse } }) := by
  have hData : (JSValue.obj [("method", .str request.method), ("body", request.body),
      ("headers", headersObject request.headers)]) = callData request := rfl
  unfold asanaWebhook tryCatch
  simp only [Handler.bind_apply, Handler.bind, Handler.ite_apply, Handler.pure_apply,
    evaluate_apply, responseSet, responseStatus, responseJson, responseEnd, loggerError,
    World.fresh, hOpt, hPost, if_false, if_true, ne_eq, not_false_eq_true]
  rw [hData]
  cases hT : loggerThrows lib request.body with
  | true =>
    rw [loggerInfo_throws lib _ _ _ (by rw [loggerThrows_callData]; exact hT)]
    simp [errorResponse, corsHeaders]
  | false =>
    rw [loggerInfo_accepts lib _ _ _ (by rw [loggerThrows_callData]; exact hT)]
    simp [methodNotAllowedResponse, corsHeaders, callLine]

theorem detectionOf_callLine (request : Request) : detectionOf (callLine request) = none := by
  simp [detectionOf, callLine, callData]

theorem detectionOf_taskLine (d : JSValue) : detectionOf (taskLine d) = some (detectionFor d) := by
  simp [detectionOf, taskLine, taskData, detectionFor]

theorem detections_append (a b : List LogEntry) :
    detections (a ++ b) = detections a ++ detections b := by
  simp [detections]

theorem detections_taskLines (ds : List JSValue) :
    detections (ds.map taskLine) = ds.map detectionFor := by
  induction ds with
  | nil => rfl
  | cons d rest ih =>
    simp only [detections, List.map_cons, List.filterMap_cons, detectionOf_taskLine] at ih ⊢
    rw [ih]

theorem string_items_not_nullish (s : String) :
    ∀ x ∈ s.toList.map (fun c => JSValue.str (String.singleton c)), x.isNullish = false := by
  intro x hx
  obtain ⟨c, _, rfl⟩ := List.mem_map.mp hx
  rfl

theorem string_items_not_task (s : String) :
    ∀ x ∈ s.toList.map (fun c => JSValue.str (String.singleton c)),
      carriesTaskResource x = false := by
  intro x hx
  obtain ⟨c, _, rfl⟩ := List.mem_map.mp hx
  rfl

theorem find_nullish_none (items : List JSValue) (h : ∀ x ∈ items, x.isNullish = false) :
    items.find? JSValue.isNullish = none := by
  rw [List.find?_eq_none]
  intro x hx
  simp [h x hx]

theorem takeWhile_not_nullish (items : List JSValue) (h : ∀ x ∈ items, x.isNullish = false) :
    items.takeWhile (fun x => !x.isNullish) = items := by
  rw [List.takeWhile_eq_self_iff]
  intro x hx
  simp [h x hx]

theorem bodyTrace_nullish (body : JSValue) (h : body.isNullish = true) :
    bodyTrace body = ([], some (.cannotReadProperty body "events")) := by
  cases body <;> simp [JSValue.isNullish] at h <;> simp [bodyTrace, getProp]

theorem bodyTrace_array (body : JSValue) (items : List JSValue)
    (h : body.isNullish = false) (hEvents : body.field "events" = .arr items) :
    bodyTrace body =
      (((items.takeWhile (fun x => !x.isNullish)).filter carriesTaskResource).map taskLine,
       (items.find? JSValue.isNullish).map (fun x => JSError.cannotReadProperty x "resource")) := by
  simp [bodyTrace, getProp_of_not_nullish body "events" h, hEvents, JSValue.truthy, iterate]

theorem bodyTrace_string (body : JSValue) (t : String)
    (h : body.isNullish = false) (hEvents : body.field "events" = .str t) :
    bodyTrace body = ([], none) := by
  by_cases ht : t = ""
  · simp [bodyTrace, getProp_of_not_nullish body "events" h, hEvents, JSValue.truthy, ht]
  · simp only [bodyTrace, getProp_of_not_nullish body "events" h, hEvents, JSValue.truthy, ht,
      iterate, takeWhile_not_nullish _ (string_items_not_nullish t),
      find_nullish_none _ (string_items_not_nullish t)]
    have hNone : List.filter carriesTaskResource
        (List.map (fun c => JSValue.str (String.singleton c)) t.toList) = [] := by
      rw [List.filter_eq_nil_iff]
      intro x hx
      simp [string_items_not_task t x hx]
    rw [hNone]
    simp

theorem bodyTrace_falsy (body : JSValue) (h : body.isNullish = false)
    (hEvents : (body.field "events").truthy = false) :
    bodyTrace body = ([], none) := by
  simp [bodyTrace, getProp_of_not_nullish body "events" h, hEvents]

theorem bodyTrace_raises (body : JSValue) :
    (bodyTrace body).2.isSome = bodyRaises body := by
  cases hn : body.isNullish with
  | true => simp [bodyTrace_nullish body hn, bodyRaises, hn]
  | false =>
    cases hv : body.field "events" with
    | arr items =>
      rw [bodyTrace_array body items hn hv]
      simp only [bodyRaises, hn, hv, eventsWellFormed, Bool.false_or, Option.isSome_map']
      cases hf : items.find? JSValue.isNullish with
      | none =>
        rw [List.find?_eq_none] at hf
        have : items.all (fun x => !x.isNullish) = true := by
          rw [List.all_eq_true]
          intro x hx
          simpa using hf x hx
        simp [this]
      | some x =>
        have hx := List.find?_some hf
        have hm := List.mem_of_find?_eq_some hf
        have : items.all (fun x => !x.isNullish) = false := by
          rw [List.all_eq_false]
          exact ⟨x, hm, by simp [hx]⟩
        simp [this]
    | str t =>
      rw [bodyTrace_string body t hn hv]
      simp [bodyRaises, hn, hv, eventsWellFormed]
    | _ =>
      simp [bodyTrace, getProp_of_not_nullish body "events" hn, hv, JSValue.truthy, iterate,
        bodyRaises, hn, eventsWellFormed] <;>
      split <;> simp_all

theorem isObject_not_nullish (v : JSValue) (h : v.isObject = true) : v.isNullish = false := by
  cases v <;> simp [JSValue.isObject] at h <;> rfl

theorem bodyTrace_error_none (body : JSValue) (h : bodyRaises body = false) :
    (bodyTrace body).2 = none := by
  have := bodyTrace_raises body
  rw [h] at this
  simpa using this

theorem detections_cons_callLine (request : Request) (l : List LogEntry) :
    detections (callLine request :: l) = detections l := by
  simp only [detections]
  exact List.filterMap_cons_none (detectionOf_callLine request)

theorem asanaWebhook_detections (lib : Library) (env : Env) (request : Request)
    (log : List LogEntry) :
    detections (asanaWebhook lib env request (World.fresh log)).2.log =
      detections log ++
        if request.method = "POST" ∧ loggerThrows lib request.body = false
        then detections (bodyTrace request.body).1 else [] := by
  have hErr : ∀ e, detections [LogEntry.error "❌ Webhook 처리 중 오류:" e] = [] := by
    intro e
    simp [detections, detectionOf]
  by_cases hPost : request.method = "POST"
  · rw [asanaWebhook_post lib env request log hPost]
    cases hT : loggerThrows lib request.body with
    | true => simp [hPost, detections_append, hErr]
    | false =>
      cases (bodyTrace request.body).2 with
      | none => simp [hPost, detections_append, detections_cons_callLine]
      | some e => simp [hPost, detections_append, detections_cons_callLine, hErr]
  · by_cases hOpt : request.method = "OPTIONS"
    · rw [asanaWebhook_options lib env request log hOpt]
      simp [hPost]
    · rw [asanaWebhook_other lib env request log hOpt hPost]
      cases hT : loggerThrows lib request.body with
      | true => simp [hPost, detections_append, hErr]
      | false =>
        simp [hPost, detections_append, detections_cons_callLine, detections,
          detectionOf_callLine]

/-! ## The properties -/

/-- C1, as amended: a POST whose body is an object (plain object or array) is
answered exactly once; the answer has status 200, and is then the body holding
`received: true`, exactly when its `events` can be gone through without a
throw (absent or falsy, a string, or an array with no null or undefined item)
and the logger does not throw on the body (the installed logger does not call
a truthy `toJSON`, or no object of the body has one); otherwise the status is
500. -/
theorem asanaWebhook_object_body_received (lib : Library) (env : Env) (request : Request)
    (log : List LogEntry)
    (hPost : request.method = "POST") (hObj : request.body.isObject = true) :
    ∃ w s, asanaWebhook lib env request (World.fresh log) = (.ok (), w) ∧ w.res.sent = some s ∧
      (s.status = 200 ↔
        (eventsWellFormed (request.body.field "events") = true ∧
          loggerThrows lib request.body = false)) ∧
      (s.status = 200 → s = receivedResponse env) ∧
      (s.status ≠ 200 → s.status = 500) := by
  have hn := isObject_not_nullish _ hObj
  have hR := bodyTrace_raises request.body
  simp only [bodyRaises, hn, Bool.false_or] at hR
  rw [asanaWebhook_post lib env request log hPost]
  cases hT : loggerThrows lib request.body with
  | true =>
    refine ⟨_, errorResponse env toJSONError, rfl, by simp, ?_, ?_, ?_⟩ <;>
      simp [errorResponse]
  | false =>
    cases hE : (bodyTrace request.body).2 with
    | none =>
      rw [hE] at hR
      have hW : eventsWellFormed (request.body.field "events") = true := by
        simpa using hR.symm
      refine ⟨_, receivedResponse env, rfl, by simp, ?_, ?_, ?_⟩ <;>
        simp [receivedResponse, hW]
    | some e =>
      rw [hE] at hR
      have hW : eventsWellFormed (request.body.field "events") = false := by
        simpa using hR.symm
      refine ⟨_, errorResponse env e, rfl, by simp, ?_, ?_, ?_⟩ <;>
        simp [errorResponse, hW]

/-- C1, witness: the delivery of one task event is answered 200 with
`received: true`, also by the older logger. -/
theorem asanaWebhook_object_body_received_witness :
    ∃ w, asanaWebhook olderLibrary sampleEnv
        { method := "POST", body := .obj [("events", .arr [taskEvent "123" "changed"])],
          headers := [] } (World.fresh []) = (.ok (), w) ∧
      w.res.sent = some (receivedResponse sampleEnv) := by
  obtain ⟨w, s, hw, hs, hIff, hEq, _⟩ :=
    asanaWebhook_object_body_received olderLibrary sampleEnv
      { method := "POST", body := .obj [("events", .arr [taskEvent "123" "changed"])],
        headers := [] } [] rfl rfl
  exact ⟨w, hw, by rw [hs, hEq (hIff.mpr ⟨by decide, by decide⟩)]⟩

/-- C1, counterexample: a POST whose body is the object with `events: [null]`
is answered with status 500, not 200. -/
theorem asanaWebhook_object_body_counterexample :
    (JSValue.obj [("events", .arr [.null])]).isObject = true ∧
    (asanaWebhook olderLibrary sampleEnv
        { method := "POST", body := .obj [("events", .arr [.null])], headers := [] }
        (World.fresh [])).2.res.sent
      = some (errorResponse sampleEnv (.cannotReadProperty .null "resource")) ∧
    (errorResponse sampleEnv (.cannotReadProperty .null "resource")).status = 500 := by
  refine ⟨rfl, ?_, rfl⟩
  rw [asanaWebhook_post _ _ _ _ rfl]
  rfl

/-- C2, as amended: a request whose method is not POST is answered exactly
once: with status 200 and an empty body when the method is OPTIONS (the CORS
preflight); otherwise with status 405 and the error Method Not Allowed, unless
the logger throws on the body of the request, when the answer is status 500
with the error Internal Server Error. -/
theorem asanaWebhook_method_not_post (lib : Library) (env : Env) (request : Request)
    (log : List LogEntry) (hNotPost : request.method ≠ "POST") :
    ∃ w, asanaWebhook lib env request (World.fresh log) = (.ok (), w) ∧
      w.res.sent = some (if request.method = "OPTIONS" then preflightResponse
                         else if loggerThrows lib request.body = true
                         then errorResponse env toJSONError
                         else methodNotAllowedResponse) := by
  by_cases hOpt : request.method = "OPTIONS"
  · rw [asanaWebhook_options lib env request log hOpt]
    exact ⟨_, rfl, by simp [hOpt]⟩
  · rw [asanaWebhook_other lib env request log hOpt hNotPost]
    cases hT : loggerThrows lib request.body <;> exact ⟨_, rfl, by simp [hOpt]⟩

/-- C2, witness: a GET is answered 405. -/
theorem asanaWebhook_method_not_post_witness :
    ∃ w, asanaWebhook olderLibrary sampleEnv { method := "GET", body := .obj [], headers := [] }
        (World.fresh []) = (.ok (), w) ∧
      w.res.sent = some methodNotAllowedResponse := by
  obtain ⟨w, hw, hs⟩ :=
    asanaWebhook_method_not_post olderLibrary sampleEnv
      { method := "GET", body := .obj [], headers := [] } [] (by decide)
  exact ⟨w, hw, by rw [hs]; rfl⟩

/-- C2, counterexample: an OPTIONS request, which is not a POST and carries no
header at all, is answered with status 200, not 405. -/
theorem asanaWebhook_method_not_post_counterexample :
    ("OPTIONS" : String) ≠ "POST" ∧
    (asanaWebhook olderLibrary sampleEnv { method := "OPTIONS", body := .obj [], headers := [] }
        (World.fresh [])).2.res.sent = some preflightResponse ∧
    preflightResponse.status = 200 := by
  refine ⟨by decide, ?_, rfl⟩
  rw [asanaWebhook_options _ _ _ _ rfl]

/-- C3, as amended: a POST whose body is not an object is never answered 400:
the answer is 500 with the error Internal Server Error when the body is null
or undefined, and 200 with `received: true` when it is a string, a number or a
boolean; in both cases no task event is detected. -/
theorem asanaWebhook_malformed_body (lib : Library) (env : Env) (request : Request)
    (log : List LogEntry)
    (hPost : request.method = "POST") (hMal : request.body.isObject = false) :
    ∃ w, asanaWebhook lib env request (World.fresh log) = (.ok (), w) ∧
      w.res.sent = some (if request.body.isNullish = true
                         then errorResponse env (.cannotReadProperty request.body "events")
                         else receivedResponse env) ∧
      detections w.log = detections log := by
  have hT : loggerThrows lib request.body = false := by
    simp [loggerThrows, holdsToJSON_of_not_object _ hMal]
  have hDet := asanaWebhook_detections lib env request log
  cases hn : request.body.isNullish with
  | true =>
    have hB := bodyTrace_nullish request.body hn
    rw [hB] at hDet
    rw [asanaWebhook_post lib env request log hPost, hB] at hDet ⊢
    simp only [hT, Bool.false_eq_true, if_false] at hDet ⊢
    refine ⟨_, rfl, by simp, ?_⟩
    simpa [hPost, detections] using hDet
  | false =>
    have hF : (request.body.field "events").truthy = false := by
      cases hb : request.body <;> simp [hb, JSValue.isObject] at hMal <;> rfl
    have hB := bodyTrace_falsy request.body hn hF
    rw [hB] at hDet
    rw [asanaWebhook_post lib env request log hPost, hB] at hDet ⊢
    simp only [hT, Bool.false_eq_true, if_false] at hDet ⊢
    refine ⟨_, rfl, by simp, ?_⟩
    simpa [hPost, detections] using hDet

/-- C3, witness: a POST whose body is a string that is not JSON is answered
200 and detects nothing. -/
theorem asanaWebhook_malformed_body_witness :
    ∃ w, asanaWebhook olderLibrary sampleEnv
        { method := "POST", body := .str "not json", headers := [] }
        (World.fresh []) = (.ok (), w) ∧
      w.res.sent = some (if (JSValue.str "not json").isNullish = true
                         then errorResponse sampleEnv
                                (.cannotReadProperty (.str "not json") "events")
                         else receivedResponse sampleEnv) ∧
      detections w.log = detections [] :=
  asanaWebhook_malformed_body olderLibrary sampleEnv
    { method := "POST", body := .str "not json", headers := [] } [] rfl rfl

/-- C3, counterexample: a POST with the body null is answered with status 500
and a POST with a string body that is not JSON with status 200, neither with
status 400. -/
theorem asanaWebhook_malformed_body_counterexample :
    ((asanaWebhook olderLibrary sampleEnv { method := "POST", body := .null, headers := [] }
        (World.fresh [])).2.res.sent).map (fun r => r.status) = some 500 ∧
    ((asanaWebhook olderLibrary sampleEnv
        { method := "POST", body := .str "not json", headers := [] }
        (World.fresh [])).2.res.sent).map (fun r => r.status) = some 200 := by
  constructor
  · rw [asanaWebhook_post _ _ _ _ rfl]
    rfl
  · rw [asanaWebhook_post _ _ _ _ rfl]
    rfl

/-- C4, as amended: for a POST whose body has an `events` list, the task-event
detections written are, in delivery order, those of exactly the descriptors
that carry a resource whose `resource_type` is task (taskId = resource.gid,
eventType = action) among the entries before the first null or undefined
entry, all entries when there is none; every other descriptor is dropped, so
there are as many new detections as such task descriptors. When the logger
throws on the body, nothing is detected. -/
theorem asanaWebhook_detects_task_events (lib : Library) (env : Env) (request : Request)
    (log : List LogEntry) (fields : List (String × JSValue)) (items : List JSValue)
    (hPost : request.method = "POST") (hBody : request.body = .obj fields)
    (hEvents : fields.lookup "events" = some (.arr items)) :
    ∃ w, asanaWebhook lib env request (World.fresh log) = (.ok (), w) ∧
      detections w.log = detections log ++
        (if loggerThrows lib request.body = true then []
         else ((items.takeWhile (fun x => !x.isNullish)).filter carriesTaskResource).map
                detectionFor) ∧
      (detections w.log).length = (detections log).length +
        (if loggerThrows lib request.body = true then 0
         else (items.takeWhile (fun x => !x.isNullish)).countP carriesTaskResource) := by
  have hn : request.body.isNullish = false := by rw [hBody]; rfl
  have hf : request.body.field "events" = .arr items := by
    rw [hBody]; simp [JSValue.field, hEvents]
  have hB := bodyTrace_array request.body items hn hf
  have hDet := asanaWebhook_detections lib env request log
  rw [hB] at hDet
  simp only [hPost, true_and, detections_taskLines] at hDet
  have hDet2 : detections (asanaWebhook lib env request (World.fresh log)).2.log =
      detections log ++
        (if loggerThrows lib request.body = true then []
         else ((items.takeWhile (fun x => !x.isNullish)).filter carriesTaskResource).map
                detectionFor) := by
    rw [hDet]
    cases loggerThrows lib request.body <;> simp
  have hRun : ∃ w, asanaWebhook lib env request (World.fresh log) = (.ok (), w) := by
    rw [asanaWebhook_post lib env request log hPost]
    exact ⟨_, rfl⟩
  obtain ⟨w, hw⟩ := hRun
  rw [hw] at hDet2
  refine ⟨w, hw, hDet2, ?_⟩
  show (detections w.log).length = _
  rw [show detections w.log = _ from hDet2, List.length_append]
  cases loggerThrows lib request.body <;>
    simp [List.countP_eq_length_filter]

/-- C4, witness: two task events around a descriptor without a resource give
two detections, in order. -/
theorem asanaWebhook_detects_task_events_witness :
    ∃ w, asanaWebhook olderLibrary sampleEnv
        { method := "POST",
          body := .obj [("events", .arr [taskEvent "1" "changed",
                                         .obj [("action", .str "changed")],
                                         taskEvent "2" "added"])],
          headers := [] } (World.fresh []) = (.ok (), w) ∧
      detections w.log = [{ taskId := .str "1", eventType := .str "changed" },
                          { taskId := .str "2", eventType := .str "added" }] := by
  obtain ⟨w, hw, hd, _⟩ :=
    asanaWebhook_detects_task_events olderLibrary sampleEnv
      { method := "POST",
        body := .obj [("events", .arr [taskEvent "1" "changed",
                                       .obj [("action", .str "changed")],
                                       taskEvent "2" "added"])],
        headers := [] } []
      [("events", .arr [taskEvent "1" "changed", .obj [("action", .str "changed")],
                        taskEvent "2" "added"])]
      [taskEvent "1" "changed", .obj [("action", .str "changed")], taskEvent "2" "added"]
      rfl rfl rfl
  exact ⟨w, hw, by rw [hd]; rfl⟩

/-- C4, counterexample: in the events list `[null, task event]` one descriptor
carries a task resource, yet no detection is written. -/
theorem asanaWebhook_detects_task_events_counterexample :
    detections (asanaWebhook olderLibrary sampleEnv
        { method := "POST", body := .obj [("events", .arr [.null, taskEvent "1" "changed"])],
          headers := [] } (World.fresh [])).2.log = [] ∧
    ([JSValue.null, taskEvent "1" "changed"].filter carriesTaskResource).length = 1 := by
  constructor
  · rw [asanaWebhook_detections]
    rfl
  · decide

/-- C5, the code at the failing input: a task event whose action is deleted and
which carries no status at all is still written as a detection. -/
theorem asanaWebhook_detects_any_task_action :
    detections (asanaWebhook olderLibrary sampleEnv
        { method := "POST", body := .obj [("events", .arr [taskEvent "1" "deleted"])],
          headers := [] } (World.fresh [])).2.log
      = [{ taskId := .str "1", eventType := .str "deleted" }] := by
  rw [asanaWebhook_detections]
  rfl

/-- C6, as amended: a POST whose body is an object with no `events` field, or
whose `events` list holds only descriptors of a resource type other than task,
writes no task-event detection; it is answered 200 with `received: true`,
unless the logger throws on the body, when the answer is status 500 with the
error Internal Server Error. -/
theorem asanaWebhook_no_task_events (lib : Library) (env : Env) (request : Request)
    (log : List LogEntry) (fields : List (String × JSValue))
    (hPost : request.method = "POST") (hBody : request.body = .obj fields)
    (hEvents : fields.lookup "events" = none ∨
      ∃ items, fields.lookup "events" = some (.arr items) ∧
        ∀ x ∈ items, ∃ t, resourceTypeOf x = some t ∧ t ≠ .str "task") :
    ∃ w, asanaWebhook lib env request (World.fresh log) = (.ok (), w) ∧
      detections w.log = detections log ∧
      w.res.sent = some (if loggerThrows lib request.body = true
                         then errorResponse env toJSONError
                         else receivedResponse env) := by
  have hn : request.body.isNullish = false := by rw [hBody]; rfl
  have hB : bodyTrace request.body = ([], none) := by
    rcases hEvents with hNone | ⟨items, hSome, hAll⟩
    · apply bodyTrace_falsy request.body hn
      rw [hBody]; simp [JSValue.field, hNone, JSValue.truthy]
    · have hf : request.body.field "events" = .arr items := by
        rw [hBody]; simp [JSValue.field, hSome]
      have hItems : ∀ x ∈ items, x.isNullish = false := by
        intro x hx
        obtain ⟨t, ht, _⟩ := hAll x hx
        cases x <;> simp [resourceTypeOf] at ht
        rfl
      have hNoTask : items.filter carriesTaskResource = [] := by
        rw [List.filter_eq_nil_iff]
        intro x hx
        obtain ⟨t, ht, hne⟩ := hAll x hx
        simp only [carriesTaskResource, ht]
        cases t <;> simp at hne ⊢
        exact hne
      rw [bodyTrace_array request.body items hn hf, takeWhile_not_nullish items hItems,
        find_nullish_none items hItems, hNoTask]
      rfl
  have hDet := asanaWebhook_detections lib env request log
  rw [hB] at hDet
  rw [asanaWebhook_post lib env request log hPost, hB] at hDet ⊢
  cases hT : loggerThrows lib request.body with
  | true =>
    rw [hT] at hDet
    refine ⟨_, rfl, ?_, by simp⟩
    simpa [hPost, detections] using hDet
  | false =>
    rw [hT] at hDet
    refine ⟨_, rfl, ?_, by simp⟩
    simpa [hPost, detections] using hDet

/-- C6, witness: the delivery of one project event is answered 200 and detects
nothing. -/
theorem asanaWebhook_no_task_events_witness :
    ∃ w, asanaWebhook olderLibrary sampleEnv
        { method := "POST",
          body := .obj [("events", .arr [.obj [("resource", .obj [("gid", .str "9"),
                          ("resource_type", .str "project")]), ("action", .str "changed")]])],
          headers := [] } (World.fresh []) = (.ok (), w) ∧
      detections w.log = detections [] ∧
      w.res.sent = some (receivedResponse sampleEnv) := by
  obtain ⟨w, hw, hd, hs⟩ :=
    asanaWebhook_no_task_events olderLibrary sampleEnv
      { method := "POST",
        body := .obj [("events", .arr [.obj [("resource", .obj [("gid", .str "9"),
                        ("resource_type", .str "project")]), ("action", .str "changed")]])],
        headers := [] } []
      [("events", .arr [.obj [("resource", .obj [("gid", .str "9"),
          ("resource_type", .str "project")]), ("action", .str "changed")]])]
      rfl rfl
      (Or.inr ⟨_, rfl, by
        intro x hx
        simp only [List.mem_singleton] at hx
        subst hx
        exact ⟨.str "project", rfl, by simp⟩⟩)
  exact ⟨w, hw, hd, by rw [hs]; rfl⟩

/-- C6, counterexample: a POST whose body is the object with the one property
`toJSON: 1`, which has no `events` field, is answered by a handler running a
release of the logger before 6.6 with status 500, not 200. -/
theorem asanaWebhook_no_task_events_counterexample :
    List.lookup "events" [("toJSON", JSValue.num (.finite 1))] = none ∧
    (asanaWebhook olderLibrary sampleEnv
        { method := "POST", body := .obj [("toJSON", .num (.finite 1))], headers := [] }
        (World.fresh [])).2.res.sent = some (errorResponse sampleEnv toJSONError) ∧
    (errorResponse sampleEnv toJSONError).status = 500 := by
  refine ⟨rfl, ?_, rfl⟩
  rw [asanaWebhook_post _ _ _ _ rfl]
  rfl

theorem asanaWebhook_answers (lib : Library) (env : Env) (request : Request)
    (log : List LogEntry) :
    ∃ w s, asanaWebhook lib env request (World.fresh log) = (.ok (), w) ∧
      w.res.sent = some s ∧ s.headers = corsHeaders := by
  by_cases hPost : request.method = "POST"
  · rw [asanaWebhook_post lib env request log hPost]
    cases loggerThrows lib request.body with
    | true => exact ⟨_, _, rfl, rfl, rfl⟩
    | false =>
      cases (bodyTrace request.body).2 with
      | none => exact ⟨_, _, rfl, rfl, rfl⟩
      | some e => exact ⟨_, _, rfl, rfl, rfl⟩
  · by_cases hOpt : request.method = "OPTIONS"
    · rw [asanaWebhook_options lib env request log hOpt]
      exact ⟨_, _, rfl, rfl, rfl⟩
    · rw [asanaWebhook_other lib env request log hOpt hPost]
      cases loggerThrows lib request.body <;> exact ⟨_, _, rfl, rfl, rfl⟩

theorem asanaWebhook_result_headers (lib : Library) (env : Env) (request : Request)
    (log : List LogEntry) (other : List (String × String)) :
    (asanaWebhook lib env { request with headers := other } (World.fresh log)).1 =
      (asanaWebhook lib env request (World.fresh log)).1 ∧
    (asanaWebhook lib env { request with headers := other } (World.fresh log)).2.res =
      (asanaWebhook lib env request (World.fresh log)).2.res := by
  by_cases hPost : request.method = "POST"
  · rw [asanaWebhook_post lib env request log hPost,
      asanaWebhook_post lib env { request with headers := other } log hPost]
    cases loggerThrows lib request.body with
    | true => exact ⟨rfl, rfl⟩
    | false => cases (bodyTrace request.body).2 <;> exact ⟨rfl, rfl⟩
  · by_cases hOpt : request.method = "OPTIONS"
    · rw [asanaWebhook_options lib env request log hOpt,
        asanaWebhook_options lib env { request with headers := other } log hOpt]
      exact ⟨rfl, rfl⟩
    · rw [asanaWebhook_other lib env request log hOpt hPost,
        asanaWebhook_other lib env { request with headers := other } log hOpt hPost]
      cases loggerThrows lib request.body <;> exact ⟨rfl, rfl⟩

/-- C7, as amended: a verification token in the request headers changes
nothing: the outcome, the response and the task-event detections of
`asanaWebhook` are those of the same request with any other headers, and the
response headers are the three CORS headers only, so no token is echoed and
the events of a POST body are examined as for any delivery. -/
theorem asanaWebhook_ignores_headers (lib : Library) (env : Env) (request : Request)
    (log : List LogEntry) (other : List (String × String)) :
    (asanaWebhook lib env { request with headers := other } (World.fresh log)).1 =
      (asanaWebhook lib env request (World.fresh log)).1 ∧
    (asanaWebhook lib env { request with headers := other } (World.fresh log)).2.res =
      (asanaWebhook lib env request (World.fresh log)).2.res ∧
    detections (asanaWebhook lib env { request with headers := other } (World.fresh log)).2.log =
      detections (asanaWebhook lib env request (World.fresh log)).2.log ∧
    ∃ s, (asanaWebhook lib env request (World.fresh log)).2.res.sent = some s ∧
      s.headers = corsHeaders := by
  obtain ⟨h1, h2⟩ := asanaWebhook_result_headers lib env request log other
  refine ⟨h1, h2, ?_, ?_⟩
  · rw [asanaWebhook_detections, asanaWebhook_detections]
  · obtain ⟨w, s, hw, hs, hh⟩ := asanaWebhook_answers lib env request log
    exact ⟨s, by rw [hw]; exact hs, hh⟩

/-- C7, counterexample: a POST carrying the token s3cr3t in the header
X-Hook-Secret and one task event in its body is answered with the three CORS
headers, none of which holds the token, and the event is detected. -/
theorem asanaWebhook_handshake_counterexample :
    (asanaWebhook olderLibrary sampleEnv
        { method := "POST", body := .obj [("events", .arr [taskEvent "123" "changed"])],
          headers := [("x-hook-secret", "s3cr3t")] } (World.fresh [])).2.res.sent
      = some (receivedResponse sampleEnv) ∧
    (∀ h ∈ (receivedResponse sampleEnv).headers, h.1 ≠ "X-Hook-Secret" ∧ h.2 ≠ "s3cr3t") ∧
    detections (asanaWebhook olderLibrary sampleEnv
        { method := "POST", body := .obj [("events", .arr [taskEvent "123" "changed"])],
          headers := [("x-hook-secret", "s3cr3t")] } (World.fresh [])).2.log
      = [{ taskId := .str "123", eventType := .str "changed" }] := by
  refine ⟨?_, by decide, ?_⟩
  · rw [asanaWebhook_post _ _ _ _ rfl]
    rfl
  · rw [asanaWebhook_detections]
    rfl

/-- C8, as amended: `asanaWebhook` keeps nothing between deliveries: a second
delivery of the same envelope writes the same task-event detections as the
first, again and in the same order, whatever the time of each delivery. -/
theorem asanaWebhook_redelivery_repeats (lib : Library) (env1 env2 : Env) (request : Request)
    (log : List LogEntry) :
    ∃ ds, detections (asanaWebhook lib env1 request (World.fresh log)).2.log
        = detections log ++ ds ∧
      detections (asanaWebhook lib env2 request
          (World.fresh (asanaWebhook lib env1 request (World.fresh log)).2.log)).2.log
        = detections log ++ ds ++ ds := by
  refine ⟨if request.method = "POST" ∧ loggerThrows lib request.body = false
          then detections (bodyTrace request.body).1 else [], ?_, ?_⟩
  · rw [asanaWebhook_detections]
  · rw [asanaWebhook_detections, asanaWebhook_detections]

/-- C8, counterexample: after two deliveries of the envelope holding the one
task event 123, the detection of that event has been written twice. -/
theorem asanaWebhook_redelivery_counterexample :
    detections (asanaWebhook olderLibrary sampleEnv
        { method := "POST", body := .obj [("events", .arr [taskEvent "123" "changed"])],
          headers := [] }
        (World.fresh (asanaWebhook olderLibrary sampleEnv
          { method := "POST", body := .obj [("events", .arr [taskEvent "123" "changed"])],
            headers := [] } (World.fresh [])).2.log)).2.log
      = [{ taskId := .str "123", eventType := .str "changed" },
         { taskId := .str "123", eventType := .str "changed" }] := by
  rw [asanaWebhook_detections, asanaWebhook_detections]
  rfl

/-- C9, as amended: `asanaWebhook` is total: for every request it ends without
a thrown error and with exactly one response sent, whose status is 200, 405 or
500; the status is 500 exactly when the method is not OPTIONS and either the
logger throws on the body of the request (the installed logger calls a truthy
`toJSON` and an object of the body has one) or the request is a POST whose
body raises when evaluated (the body is null or undefined, its `events` is
truthy and not iterable, or its `events` list holds a null or undefined item);
the body of a 500 response carries the error Internal Server Error. -/
theorem asanaWebhook_total (lib : Library) (env : Env) (request : Request)
    (log : List LogEntry) :
    ∃ w s, asanaWebhook lib env request (World.fresh log) = (.ok (), w) ∧ w.res.sent = some s ∧
      (s.status = 200 ∨ s.status = 405 ∨ s.status = 500) ∧
      (s.status = 500 ↔
        (request.method ≠ "OPTIONS" ∧
          (loggerThrows lib request.body = true ∨
            (request.method = "POST" ∧ bodyRaises request.body = true)))) ∧
      (s.status = 500 → ∃ e, s = errorResponse env e) := by
  by_cases hPost : request.method = "POST"
  · have hOpt : request.method ≠ "OPTIONS" := by rw [hPost]; decide
    rw [asanaWebhook_post lib env request log hPost]
    have hR := bodyTrace_raises request.body
    cases hT : loggerThrows lib request.body with
    | true =>
      refine ⟨_, errorResponse env toJSONError, rfl, by simp, Or.inr (Or.inr rfl), ?_, ?_⟩
      · simp [errorResponse, hOpt]
      · exact fun _ => ⟨_, rfl⟩
    | false =>
      cases hE : (bodyTrace request.body).2 with
      | none =>
        rw [hE] at hR
        refine ⟨_, receivedResponse env, rfl, by simp, Or.inl rfl, ?_, ?_⟩
        · simp [receivedResponse, hPost, ← hR]
        · simp [receivedResponse]
      | some e =>
        rw [hE] at hR
        refine ⟨_, errorResponse env e, rfl, by simp, Or.inr (Or.inr rfl), ?_, ?_⟩
        · simp [errorResponse, hPost, ← hR]
        · exact fun _ => ⟨e, rfl⟩
  · by_cases hOpt : request.method = "OPTIONS"
    · rw [asanaWebhook_options lib env request log hOpt]
      refine ⟨_, _, rfl, rfl, Or.inl rfl, ?_, ?_⟩
      · simp [preflightResponse, hOpt]
      · simp [preflightResponse]
    · rw [asanaWebhook_other lib env request log hOpt hPost]
      cases hT : loggerThrows lib request.body with
      | true =>
        refine ⟨_, errorResponse env toJSONError, rfl, by simp, Or.inr (Or.inr rfl), ?_, ?_⟩
        · simp [errorResponse, hOpt]
        · exact fun _ => ⟨_, rfl⟩
      | false =>
        refine ⟨_, methodNotAllowedResponse, rfl, by simp, Or.inr (Or.inl rfl), ?_, ?_⟩
        · simp [methodNotAllowedResponse, hPost]
        · simp [methodNotAllowedResponse]

/-- C9, counterexample: a GET whose body is the object with the one property
`toJSON: 1` is no POST, yet a handler running a release of the logger before
6.6 answers it with status 500 and the error Internal Server Error. -/
theorem asanaWebhook_total_counterexample :
    ("GET" : String) ≠ "POST" ∧
    (asanaWebhook olderLibrary sampleEnv
        { method := "GET", body := .obj [("toJSON", .num (.finite 1))], headers := [] }
        (World.fresh [])).2.res.sent = some (errorResponse sampleEnv toJSONError) ∧
    (errorResponse sampleEnv toJSONError).status = 500 := by
  refine ⟨by decide, ?_, rfl⟩
  rw [asanaWebhook_other _ _ _ _ (by decide) (by decide)]
  rfl

/-- C10: `healthCheck` ends without a thrown error and with exactly one
response; that response has status 200 and reports healthy if and only if the
Firestore write succeeded; when the write failed with an error the response
has status 500, reports unhealthy and carries the message of that error; and
the run is the same for every request. -/
theorem healthCheck_reports_write (env : HealthEnv) (request : Request) (log : List LogEntry) :
    ∃ w s, healthCheck env request (World.fresh log) = (.ok (), w) ∧ w.res.sent = some s ∧
      ((s.status = 200 ∧ s.reportedStatus = .str "healthy") ↔ env.writeResult = .ok ()) ∧
      (env.writeResult = .ok () → s = healthyResponse env) ∧
      (∀ e, env.writeResult = .error e →
        s = unhealthyResponse env e ∧ s.status = 500 ∧ s.reportedStatus = .str "unhealthy" ∧
        s.body = .json (.obj [("status", .str "unhealthy"),
                              ("message", .str "시스템에 문제가 발생했습니다"),
                              ("error", .str (env.errorMessage e)),
                              ("timestamp", .str env.now)])) ∧
      (∀ other : Request, healthCheck env other = healthCheck env request) := by
  cases hW : env.writeResult with
  | ok u =>
    refine ⟨{ log := log, res := { headers := [("Access-Control-Allow-Origin", "*")],
                                   statusCode := 200, sent := some (healthyResponse env) } },
      healthyResponse env, ?_, rfl, ?_, ?_, ?_, ?_⟩
    · unfold healthCheck tryCatch
      simp only [Handler.bind_apply, Handler.bind, evaluate_apply, responseSet, responseJson,
        responseEnd, World.fresh, hW]
      rfl
    · simp [healthyResponse, SentResponse.reportedStatus, JSValue.field, List.lookup]
    · intro _; rfl
    · intro e he; cases he
    · intro other; rfl
  | error e =>
    refine ⟨{ log := log ++ [.error "❌ 헬스체크 실패:" e],
              res := { headers := [("Access-Control-Allow-Origin", "*")],
                       statusCode := 500, sent := some (unhealthyResponse env e) } },
      unhealthyResponse env e, ?_, rfl, ?_, ?_, ?_, ?_⟩
    · unfold healthCheck tryCatch
      simp only [Handler.bind_apply, Handler.bind, evaluate_apply, responseSet, responseJson,
        responseEnd, responseStatus, loggerError, World.fresh, hW]
      rfl
    · simp [unhealthyResponse]
    · intro h; cases h
    · intro e2 he
      cases he
      exact ⟨rfl, rfl, rfl, rfl⟩
    · intro other; rfl

end AsanaFunctions
